import Mathlib

/-!
Shallow embedding of `main.go` from calmh/bluetooth-temp-logger.

The embedded parts are `onDiscovery` (header check, the record-parsing
loop, gauge pushes, and the inline state-map update) and the periodic
flush from `serve`.  Bytes are `Nat`s; Go slice expressions that can
panic (`rest[1:]` on an empty slice, `rest[k:]` past the length,
`binary.LittleEndian.Uint16` on fewer than two bytes) are modelled by
`Option`-returning helpers, and a `none` surfaces as the explicit
`panic` outcome of the decode.  The temperature float `0.0625 * v` is
exact for every int16 `v` (a power-of-two scale of an integer), so it
is modelled as the rational `v / 16`, and Go's `%.01f` formatting as
exact round-half-to-even to one decimal.
-/

namespace Btl

/-- The magic prefix checked at the top of `onDiscovery`. -/
def magic : List Nat := [0x85, 0x00, 0x02, 0x00, 0x3c]

/-- Go `type update struct { message string; changed bool }`. -/
structure Update where
  message : String
  changed : Bool
deriving DecidableEq

/-- The `updates map[string]*update` field of `state`, as an association list. -/
abbrev Store := List (String × Update)

/-- Go map lookup `s.updates[id]` (nil when absent). -/
def Store.find : Store → String → Option Update
  | [], _ => none
  | (k, u) :: t, id => if k = id then some u else Store.find t id

/-- Go map write `s.updates[id] = u` (replace or add). -/
def Store.insert : Store → String → Update → Store
  | [], id, u => [(id, u)]
  | (k, v) :: t, id, u =>
      if k = id then (k, u) :: t else (k, v) :: Store.insert t id u

/-- The mutable state of one decode attempt: the `strings.Builder`
contents and the values pushed to the `airTemp` gauge so far. -/
structure DecAcc where
  str : String
  tempGauges : List Rat
deriving DecidableEq

/-- Externally visible side effects of one `onDiscovery` call: the
battery-gauge push, the temperature-gauge pushes, and log lines. -/
structure Outputs where
  battGauge : Option Nat
  tempGauges : List Rat
  logs : List String
deriving DecidableEq

/-- Result of one `onDiscovery` call.  `notOurs` is the early return on
a short or wrong-prefix payload (before any side effect); `panicked` is
a Go runtime panic (out-of-range slice or `Uint16`), carrying the side
effects already performed when it fired. -/
inductive DiscoResult where
  | notOurs
  | panicked (out : Outputs)
  | ok (out : Outputs) (summary : String)
deriving DecidableEq

/-- Go `rest[1:]`: panics (`none`) when the slice is empty. -/
def goTail : List Nat → Option (List Nat)
  | [] => none
  | _ :: t => some t

/-- Go `rest[k:]`: panics (`none`) when `k` exceeds the length. -/
def goDrop (k : Nat) (l : List Nat) : Option (List Nat) :=
  if k ≤ l.length then some (l.drop k) else none

/-- Go `binary.LittleEndian.Uint16`: panics (`none`) on fewer than two
bytes, otherwise reads the first two little-endian. -/
def leUint16 : List Nat → Option Nat
  | a :: b :: _ => some (a + 256 * b)
  | _ => none

/-- Go `int16(u)` for a `uint16` value `u`. -/
def toInt16 (u : Nat) : Int :=
  if u % 65536 < 32768 then (u % 65536 : Int) else (u % 65536 : Int) - 65536

/-- Round the rational `a / b` (with `b > 0`) to the nearest integer,
ties to even — the rounding Go's `%f` formatting performs on a value
that is exactly representable. -/
def roundHalfEven (a b : Int) : Int :=
  let f := Int.fdiv a b
  let r := a - f * b
  if 2 * r < b then f
  else if b < 2 * r then f + 1
  else if f % 2 = 0 then f else f + 1

/-- Print a signed number of tenths as a decimal with one digit after
the point, as Go's `%.01f` does. -/
def fmtTenths (t : Int) : String :=
  if t < 0 then "-" ++ toString (t.natAbs / 10) ++ "." ++ toString (t.natAbs % 10)
  else toString (t.natAbs / 10) ++ "." ++ toString (t.natAbs % 10)

/-- Go `fmt.Sprintf("%.01f", 0.0625 * float64(v))` for an int16 `v`:
`0.0625 * v` is exact in float64, so this is exact rounding of `v/16`
to one decimal, i.e. of `5*v/8` tenths. -/
def formatTemp (v : Int) : String := fmtTenths (roundHalfEven (5 * v) 8)

/-- The ` light:%v/%d/%d/%d` fragment appended for a light record with
descriptor byte `d` and value `data`. -/
def lightStr (d data : Nat) : String :=
  " light:" ++ (if d &&& 128 ≠ 0 then "true" else "false") ++ "/" ++
    toString ((d &&& 48) >>> 4) ++ "/" ++ toString ((d &&& 12) >>> 2) ++ "/" ++
    toString data

/-- The ` temp:%.01f°C` fragment for raw int16 temperature `v`. -/
def tempStr (v : Int) : String := " temp:" ++ formatTemp v ++ "°C"

/-- The `batt:%d%%` prefix of the summary. -/
def battStr (batt : Nat) : String := "batt:" ++ toString batt ++ "%"

/-- Outcome of one iteration of the record loop: a Go panic (with the
side effects performed so far), or continuation with the new `rest`. -/
inductive StepOut where
  | panic (acc : DecAcc)
  | cont (rest : List Nat) (acc : DecAcc)
deriving DecidableEq

/-- One iteration of the `for len(rest) > 0` loop body, given the
control byte `b` and the bytes `rest0` after it.  Mirrors lines
146–193 of `main.go`: flag extraction, alert-byte skip, the `!hasData`
`continue`, and the `switch dataType` (which has no default case, so an
unrecognized type just continues with `rest0`). -/
def decodeStep (b : Nat) (rest0 : List Nat) (acc : DecAcc) : StepOut :=
  match (if b &&& 128 ≠ 0 then goTail rest0 else some rest0) with
  | none => .panic acc
  | some rest1 =>
    if b &&& 64 = 0 then .cont rest1 acc
    else if b &&& 63 = 0x01 then
      match goDrop 2 rest1 with
      | none => .panic acc
      | some r => .cont r acc
    else if b &&& 63 = 0x02 then
      match rest1 with
      | [] => .panic acc
      | d :: tail =>
        match (if d &&& 3 = 2 then leUint16 tail else tail.head?) with
        | none => .panic acc
        | some data =>
          let acc2 : DecAcc := ⟨acc.str ++ lightStr d data, acc.tempGauges⟩
          match goDrop (1 + (d &&& 3)) (d :: tail) with
          | none => .panic acc2
          | some r => .cont r acc2
    else if b &&& 63 = 0x03 then
      match leUint16 rest1 with
      | none => .panic acc
      | some u =>
        let acc2 : DecAcc :=
          ⟨acc.str ++ tempStr (toInt16 u), acc.tempGauges ++ [(toInt16 u : Rat) / 16]⟩
        match goDrop 2 rest1 with
        | none => .panic acc2
        | some r => .cont r acc2
    else if b &&& 63 = 0x2f then
      match goTail rest1 with
      | none => .panic acc
      | some r => .cont r acc
    else if b &&& 63 = 0x3f then
      .cont [] acc
    else
      .cont rest1 acc

/-- Result of the whole record loop.  `fuelOut` is only an artifact of
the fuel parameter; `decodeLoop_no_fuelOut` shows it never occurs when
the fuel is at least the buffer length. -/
inductive DecodeOut where
  | panic (acc : DecAcc)
  | ok (acc : DecAcc)
  | fuelOut
deriving DecidableEq

/-- The `for len(rest) > 0` loop of `onDiscovery`, with explicit fuel. -/
def decodeLoop : Nat → List Nat → DecAcc → DecodeOut
  | _, [], acc => .ok acc
  | 0, _ :: _, _ => .fuelOut
  | fuel + 1, b :: rest0, acc =>
    match decodeStep b rest0 acc with
    | .panic a => .panic a
    | .cont r a => decodeLoop fuel r a

/-- The record loop run with fuel equal to the buffer length, which
suffices because every iteration consumes the control byte. -/
def runDecode (rest : List Nat) (acc : DecAcc) : DecodeOut :=
  decodeLoop rest.length rest acc

/-- The inline state update at the end of `onDiscovery` (lines
196–206): create a fresh empty entry (logging the new-device line) when
absent, then overwrite and set `changed` when the stored message
differs from `res`.  Returns the new store and the log lines emitted. -/
def applyGo (st : Store) (id res : String) : Store × List String :=
  match Store.find st id with
  | none =>
      (Store.insert st id (if ("" : String) ≠ res then ⟨res, true⟩ else ⟨"", false⟩),
        [id ++ ": new: " ++ res])
  | some cur =>
      (Store.insert st id (if cur.message ≠ res then ⟨res, true⟩ else cur), [])

/-- The ticker branch of `serve` (lines 115–121): log every changed
entry and clear its flag.  Returns the new store and the lines logged. -/
def drainGo : Store → Store × List String
  | [] => ([], [])
  | (k, u) :: t =>
      let p := drainGo t
      if u.changed then ((k, ⟨u.message, false⟩) :: p.1, (k ++ ": " ++ u.message) :: p.2)
      else ((k, u) :: p.1, p.2)

/-- `onDiscovery` (lines 129–207): header length and magic checks,
battery gauge push, the record loop, and the state update.  Returns the
new store and the observable result of the call. -/
def onDiscovery (st : Store) (id : String) (md : List Nat) : Store × DiscoResult :=
  if md.length < 7 then (st, .notOurs)
  else if md.take 5 ≠ magic then (st, .notOurs)
  else
    match runDecode (md.drop 7) ⟨battStr (md.getD 5 0), []⟩ with
    | .fuelOut => (st, .notOurs)
    | .panic acc => (st, .panicked ⟨some (md.getD 5 0), acc.tempGauges, []⟩)
    | .ok acc =>
        ((applyGo st id acc.str).1,
          .ok ⟨some (md.getD 5 0), acc.tempGauges, (applyGo st id acc.str).2⟩ acc.str)

/-! ## Helper lemmas -/

theorem goTail_some_length {l t : List Nat} (h : goTail l = some t) :
    t.length ≤ l.length := by
  cases l with
  | nil => simp [goTail] at h
  | cons x xs => simp [goTail] at h; subst h; simp

theorem goDrop_some_length {k : Nat} {l r : List Nat} (h : goDrop k l = some r) :
    r.length ≤ l.length := by
  unfold goDrop at h
  split at h
  · cases h; simp
  · cases h

theorem decodeStep_cont_length {b : Nat} {rest0 r : List Nat} {acc a : DecAcc}
    (h : decodeStep b rest0 acc = .cont r a) : r.length ≤ rest0.length := by
  unfold decodeStep at h
  split at h
  · cases h
  rename_i rest1 heq
  have h1 : rest1.length ≤ rest0.length := by
    split at heq
    · exact goTail_some_length heq
    · cases heq; exact Nat.le_refl _
  split at h
  · cases h; exact h1
  split at h
  · -- data-type 0x01
    split at h
    · cases h
    · rename_i r1 hdrop
      cases h
      exact Nat.le_trans (goDrop_some_length hdrop) h1
  split at h
  · -- data-type 0x02
    split at h
    · cases h
    rename_i d tail
    split at h
    · cases h
    rename_i data hdata
    split at h
    · cases h
    · rename_i r1 hdrop
      cases h
      exact Nat.le_trans (goDrop_some_length hdrop) h1
  split at h
  · -- data-type 0x03
    split at h
    · cases h
    rename_i u hu
    split at h
    · cases h
    · rename_i r1 hdrop
      cases h
      exact Nat.le_trans (goDrop_some_length hdrop) h1
  split at h
  · -- data-type 0x2f
    split at h
    · cases h
    · rename_i r1 htl
      cases h
      exact Nat.le_trans (goTail_some_length htl) h1
  split at h
  · -- data-type 0x3f
    cases h; simp
  · -- unknown data-type: continues with rest1
    cases h; exact h1

theorem decodeStep_cont_strlen {b : Nat} {rest0 r : List Nat} {acc a : DecAcc}
    (h : decodeStep b rest0 acc = .cont r a) : acc.str.length ≤ a.str.length := by
  unfold decodeStep at h
  split at h
  · cases h
  rename_i rest1 heq
  split at h
  · cases h; exact Nat.le_refl _
  split at h
  · split at h
    · cases h
    · cases h; exact Nat.le_refl _
  split at h
  · split at h
    · cases h
    rename_i d tail
    split at h
    · cases h
    rename_i data hdata
    split at h
    · cases h
    · cases h
      simp [String.length_append]
  split at h
  · split at h
    · cases h
    rename_i u hu
    split at h
    · cases h
    · cases h
      simp [String.length_append]
  split at h
  · split at h
    · cases h
    · cases h; exact Nat.le_refl _
  split at h
  · cases h; exact Nat.le_refl _
  · cases h; exact Nat.le_refl _

theorem decodeLoop_ok_strlen : ∀ {fuel : Nat} {rest : List Nat} {acc a : DecAcc},
    decodeLoop fuel rest acc = .ok a → acc.str.length ≤ a.str.length := by
  intro fuel
  induction fuel with
  | zero =>
    intro rest acc a h
    cases rest with
    | nil => cases h; exact Nat.le_refl _
    | cons x xs => cases h
  | succ n ih =>
    intro rest acc a h
    cases rest with
    | nil => cases h; exact Nat.le_refl _
    | cons b r0 =>
      unfold decodeLoop at h
      cases hst : decodeStep b r0 acc with
      | panic a1 => rw [hst] at h; cases h
      | cont r1 a1 =>
        rw [hst] at h
        exact Nat.le_trans (decodeStep_cont_strlen hst) (ih h)

theorem decodeLoop_no_fuelOut : ∀ (fuel : Nat) (rest : List Nat) (acc : DecAcc),
    rest.length ≤ fuel → decodeLoop fuel rest acc ≠ .fuelOut := by
  intro fuel
  induction fuel with
  | zero =>
    intro rest acc h
    have : rest = [] := List.length_eq_zero.mp (Nat.le_zero.mp h)
    subst this
    simp [decodeLoop]
  | succ n ih =>
    intro rest acc h
    cases rest with
    | nil => simp [decodeLoop]
    | cons b r0 =>
      unfold decodeLoop
      cases hst : decodeStep b r0 acc with
      | panic a => simp
      | cont r a =>
        have hr0 : r0.length ≤ n := by
          have := h
          simp [List.length_cons] at this
          omega
        exact ih r a (Nat.le_trans (decodeStep_cont_length hst) hr0)

theorem battStr_length_pos (n : Nat) : 1 ≤ (battStr n).length := by
  unfold battStr
  rw [String.length_append, String.length_append]
  have : ("batt:" : String).length = 5 := rfl
  omega

theorem find_insert_self (st : Store) (id : String) (u : Update) :
    Store.find (Store.insert st id u) id = some u := by
  induction st with
  | nil => simp [Store.insert, Store.find]
  | cons kv t ih =>
    obtain ⟨k, v⟩ := kv
    by_cases hk : k = id
    · simp [Store.insert, Store.find, hk]
    · simp [Store.insert, Store.find, hk, ih]

theorem onDiscovery_foreign (st : Store) (id : String) (md : List Nat)
    (h : md.length < 7 ∨ md.take 5 ≠ magic) : onDiscovery st id md = (st, .notOurs) := by
  unfold onDiscovery
  rcases h with h | h
  · rw [if_pos h]
  · by_cases h7 : md.length < 7
    · rw [if_pos h7]
    · rw [if_neg h7, if_pos h]

theorem onDiscovery_panicked {st st' : Store} {id : String} {md : List Nat} {out : Outputs}
    (h : onDiscovery st id md = (st', .panicked out)) :
    st' = st ∧ out.logs = [] ∧ out.battGauge = some (md.getD 5 0) := by
  unfold onDiscovery at h
  split at h
  · simp at h
  split at h
  · simp at h
  split at h
  · simp at h
  · rename_i acc heq
    injection h with h1 h2
    injection h2 with h3
    subst h1
    subst h3
    exact ⟨rfl, rfl, rfl⟩
  · rename_i acc heq
    injection h with h1 h2
    cases h2

theorem onDiscovery_ok_new {st st' : Store} {id : String} {md : List Nat}
    {out : Outputs} {res : String}
    (hfind : Store.find st id = none)
    (h : onDiscovery st id md = (st', .ok out res)) :
    Store.find st' id = some ⟨res, true⟩ ∧ out.logs = [id ++ ": new: " ++ res] := by
  unfold onDiscovery at h
  split at h
  · simp at h
  split at h
  · simp at h
  split at h
  · simp at h
  · rename_i acc heq
    injection h with h1 h2
    cases h2
  · rename_i acc heq
    injection h with h1 h2
    injection h2 with h3 h4
    subst h4
    subst h3
    subst h1
    have hlen : (battStr (md.getD 5 0)).length ≤ acc.str.length := by
      unfold runDecode at heq
      exact decodeLoop_ok_strlen heq
    have hne : ("" : String) ≠ acc.str := by
      intro hc
      rw [← hc] at hlen
      have := battStr_length_pos (md.getD 5 0)
      rw [String.length_empty] at hlen
      omega
    have happ : applyGo st id acc.str =
        (Store.insert st id ⟨acc.str, true⟩, [id ++ ": new: " ++ acc.str]) := by
      unfold applyGo
      rw [hfind, if_pos hne]
    rw [happ]
    exact ⟨find_insert_self st id _, rfl⟩

/-! ## Claim theorems -/

/-- C1: the claim says a record with a data-type outside
{0x01, 0x02, 0x03, 0x2f, 0x3f} must terminate the decode with an
explicit failure.  The code's `switch` has no default case, so such a
record is silently skipped: on `85 00 02 00 3c 32 00 50` (type 0x10
with has-data set) the decode succeeds with summary `batt:50%`,
updating the state as on any successful decode. -/
theorem c1_unknown_type_silently_skipped :
    onDiscovery [] "aa" [0x85, 0x00, 0x02, 0x00, 0x3c, 0x32, 0x00, 0x50] =
      ([("aa", ⟨"batt:50%", true⟩)],
        .ok ⟨some 50, [], ["aa: new: batt:50%"]⟩ "batt:50%") := by decide

/-- C2: the claim says a truncated record yields a contained decode
failure that never terminates the control loop.  On
`85 00 02 00 3c 32 00 43 90` (temperature record with one payload
byte) the code hits `binary.LittleEndian.Uint16` on a 1-byte slice,
which is a Go runtime panic: the battery gauge was already pushed, no
state mutation happened, and — since `serve` has no recover — the
panic propagates out of `onDiscovery` and kills the loop. -/
theorem c2_truncated_record_panics (st : Store) (id : String) :
    onDiscovery st id [0x85, 0x00, 0x02, 0x00, 0x3c, 0x32, 0x00, 0x43, 0x90] =
      (st, .panicked ⟨some 50, [], []⟩) := rfl

/-- C3 counterexample: the claim says the first successful decode does
not mark the entry as changed, but the fresh entry's empty message
differs from the summary, so the same invocation sets changed = true. -/
theorem c3_first_decode_marks_changed_cex :
    (onDiscovery [] "aa" [0x85, 0x00, 0x02, 0x00, 0x3c, 0x32, 0x00]).1 =
      [("aa", ⟨"batt:50%", true⟩)] := by decide

/-- C3 amended: for a device id with no existing entry, the first
successful decode creates the entry and immediately emits one
`<deviceID>: new: <summary>` log line; because the fresh entry's empty
stored message differs from the (never-empty) summary, the entry ends
the invocation with changed = true, so the first observation is also
flushed as a change at the next tick. -/
theorem c3_amended_first_decode (st st' : Store) (id : String) (md : List Nat)
    (out : Outputs) (res : String)
    (hfind : Store.find st id = none)
    (h : onDiscovery st id md = (st', .ok out res)) :
    Store.find st' id = some ⟨res, true⟩ ∧ out.logs = [id ++ ": new: " ++ res] :=
  onDiscovery_ok_new hfind h

/-- C3 amended, witness at a concrete first decode. -/
theorem c3_amended_first_decode_witness :
    Store.find [("aa", Update.mk "batt:50%" true)] "aa" = some ⟨"batt:50%", true⟩ ∧
    (Outputs.mk (some 50) [] ["aa: new: batt:50%"]).logs = ["aa" ++ ": new: " ++ "batt:50%"] :=
  c3_amended_first_decode [] [("aa", ⟨"batt:50%", true⟩)] "aa"
    [0x85, 0x00, 0x02, 0x00, 0x3c, 0x32, 0x00]
    ⟨some 50, [], ["aa: new: batt:50%"]⟩ "batt:50%" (by decide) (by decide)

/-- C4 counterexample: the claim says a stream containing control byte
`0x3f` stops decoding immediately and later bytes are never read.  A
literal `0x3f` byte has the has-data bit clear, so the loop `continue`s
past it: on `85 00 02 00 3c 32 00 3f 43 90 01` the temperature record
after the `0x3f` byte is read and appears in the summary. -/
theorem c4_bare_3f_read_past_cex :
    onDiscovery [] "aa" [0x85, 0x00, 0x02, 0x00, 0x3c, 0x32, 0x00, 0x3f, 0x43, 0x90, 0x01] =
      ([("aa", ⟨"batt:50% temp:25.0°C", true⟩)],
        .ok ⟨some 50, [(toInt16 (144 + 256 * 1) : Rat) / 16],
          ["aa: new: batt:50% temp:25.0°C"]⟩ "batt:50% temp:25.0°C") := by
  rfl

/-- C4 amended: a record whose control byte has the has-data bit set
and data-type 0x3f (e.g. control byte 0x7f; with the alert bit clear)
stops decoding immediately: the bytes after it are never read (the
result does not depend on them) and the decode succeeds with the
fields gathered so far.  A bare `0x3f` control byte (has-data clear)
is instead skipped like any other no-data record. -/
theorem c4_amended_terminal_record (b : Nat) (rest : List Nat) (acc : DecAcc) (fuel : Nat)
    (h1 : b &&& 63 = 0x3f) (h2 : b &&& 64 ≠ 0) (h3 : b &&& 128 = 0) :
    decodeLoop (fuel + 1) (b :: rest) acc = .ok acc := by
  simp [decodeLoop, decodeStep, h1, h2, h3]

/-- C4 amended, witness: control byte 0x7f ends the decode at once. -/
theorem c4_amended_terminal_record_witness :
    decodeLoop 1 [0x7f, 9, 9, 9] ⟨"x", []⟩ = .ok ⟨"x", []⟩ :=
  c4_amended_terminal_record 0x7f [9, 9, 9] ⟨"x", []⟩ 0 (by decide) (by decide) (by decide)

/-- C5 counterexample: the claim says a light record with value-length
code other than 2 consumes 1 descriptor byte plus 1 value byte.  With
code 0 the cursor advances by only the descriptor byte although the
next byte was read as the value: on
`85 00 02 00 3c 32 00 42 00 43 90 01` the byte 0x43 is used as the
light value (67) and then re-parsed as a temperature control byte, so
the summary contains both the light field and a temperature — under
the claim the stream would have ended after `90 01` with no
temperature record. -/
theorem c5_light_len0_consumption_cex :
    onDiscovery [] "aa" [0x85, 0x00, 0x02, 0x00, 0x3c, 0x32, 0x00, 0x42, 0x00, 0x43, 0x90, 0x01] =
      ([("aa", ⟨"batt:50% light:false/0/0/67 temp:25.0°C", true⟩)],
        .ok ⟨some 50, [(toInt16 (144 + 256 * 1) : Rat) / 16],
          ["aa: new: batt:50% light:false/0/0/67 temp:25.0°C"]⟩
          "batt:50% light:false/0/0/67 temp:25.0°C") := by
  rfl

/-- C5 amended: for an ambient-light record (control byte 0x42:
type 0x02, has-data set, no alert) with descriptor byte `d`: if the
value-length code `d &&& 3` equals 2, a little-endian 16-bit value is
read and the cursor advances 1 + 2 bytes past the descriptor position;
for every other code the single byte after the descriptor is read as
the value but the cursor advances 1 + code bytes (1, 2 or 4 in total
for codes 0, 1, 3), not the claimed 1 + 1. -/
theorem c5_amended_light_consumption :
    (∀ (d v w : Nat) (t : List Nat) (acc : DecAcc) (fuel : Nat), d &&& 3 = 2 →
        decodeLoop (fuel + 1) (0x42 :: d :: v :: w :: t) acc =
          decodeLoop fuel t ⟨acc.str ++ lightStr d (v + 256 * w), acc.tempGauges⟩) ∧
    (∀ (d v : Nat) (t : List Nat) (acc : DecAcc) (fuel : Nat), d &&& 3 ≠ 2 →
        1 + (d &&& 3) ≤ (d :: v :: t).length →
        decodeLoop (fuel + 1) (0x42 :: d :: v :: t) acc =
          decodeLoop fuel ((d :: v :: t).drop (1 + (d &&& 3)))
            ⟨acc.str ++ lightStr d v, acc.tempGauges⟩) := by
  have e1 : (66 : Nat) &&& 128 = 0 := by decide
  have e2 : (66 : Nat) &&& 64 = 64 := by decide
  have e3 : (66 : Nat) &&& 63 = 2 := by decide
  constructor
  · intro d v w t acc fuel h
    simp [decodeLoop, decodeStep, e1, e2, e3, h, leUint16, goDrop]
  · intro d v t acc fuel h h2
    have h2' : 1 + (d &&& 3) ≤ t.length + 1 + 1 := by simpa using h2
    simp [decodeLoop, decodeStep, e1, e2, e3, h, goDrop, h2', leUint16]

/-- C5 amended, witness at value-length codes 2 and 1. -/
theorem c5_amended_light_consumption_witness :
    decodeLoop 1 [0x42, 2, 0x90, 0x01] ⟨"s", []⟩ =
      decodeLoop 0 [] ⟨"s" ++ lightStr 2 (0x90 + 256 * 0x01), []⟩ ∧
    decodeLoop 1 [0x42, 1, 7, 8] ⟨"s", []⟩ =
      decodeLoop 0 (([1, 7, 8] : List Nat).drop (1 + (1 &&& 3))) ⟨"s" ++ lightStr 1 7, []⟩ :=
  ⟨c5_amended_light_consumption.1 2 0x90 0x01 [] ⟨"s", []⟩ 0 (by decide),
   c5_amended_light_consumption.2 1 7 [8] ⟨"s", []⟩ 0 (by decide) (by decide)⟩

/-- C6 counterexample: the claim says an advertisement whose decode
fails produces no output, in particular no battery gauge push.  The
battery gauge is pushed right after the header check, before record
parsing: on `85 00 02 00 3c 32 00 80` (alert bit set with no alert
byte left) the decode panics yet the battery gauge was already set. -/
theorem c6_gauge_on_panic_cex :
    onDiscovery [] "aa" [0x85, 0x00, 0x02, 0x00, 0x3c, 0x32, 0x00, 0x80] =
      ([], .panicked ⟨some 50, [], []⟩) := by decide

/-- C6 amended: a foreign advertisement (short or wrong prefix)
produces no output at all; but on a valid header the battery gauge is
pushed before record parsing, so an advertisement whose decode fails
(panics) emits no log line and mutates no state, yet has already
pushed the battery gauge (and any temperature gauges of records parsed
before the failure). -/
theorem c6_amended_outputs :
    (∀ (st : Store) (id : String) (md : List Nat),
        md.length < 7 ∨ md.take 5 ≠ magic → onDiscovery st id md = (st, .notOurs)) ∧
    (∀ (st st' : Store) (id : String) (md : List Nat) (out : Outputs),
        onDiscovery st id md = (st', .panicked out) →
        st' = st ∧ out.logs = [] ∧ out.battGauge = some (md.getD 5 0)) :=
  ⟨onDiscovery_foreign, fun _ _ _ _ _ h => onDiscovery_panicked h⟩

/-- C6 amended, witness: a short foreign payload, and a panicking one. -/
theorem c6_amended_outputs_witness :
    onDiscovery [] "bb" [1, 2, 3] = ([], .notOurs) ∧
    (([] : Store) = [] ∧ (Outputs.mk (some 50) [] []).logs = [] ∧
      (Outputs.mk (some 50) [] []).battGauge =
        some (([0x85, 0x00, 0x02, 0x00, 0x3c, 0x32, 0x00, 0x80] : List Nat).getD 5 0)) :=
  ⟨c6_amended_outputs.1 [] "bb" [1, 2, 3] (Or.inl (by decide)),
   c6_amended_outputs.2 [] [] "bb" [0x85, 0x00, 0x02, 0x00, 0x3c, 0x32, 0x00, 0x80]
     ⟨some 50, [], []⟩ (by decide)⟩

/-- C7: a byte sequence shorter than 7 bytes, or whose first 5 bytes
differ from the magic prefix `85 00 02 00 3c`, yields the silent
not-ours early return: the store is unchanged and no output of any
kind is produced. -/
theorem c7_not_ours (st : Store) (id : String) (md : List Nat)
    (h : md.length < 7 ∨ md.take 5 ≠ magic) :
    onDiscovery st id md = (st, .notOurs) :=
  onDiscovery_foreign st id md h

/-- C7 witness: a 3-byte payload is silently skipped. -/
theorem c7_not_ours_witness :
    (([1, 2, 3] : List Nat).length < 7 ∨ ([1, 2, 3] : List Nat).take 5 ≠ magic) ∧
    onDiscovery [("x", ⟨"m", false⟩)] "id" [1, 2, 3] = ([("x", ⟨"m", false⟩)], .notOurs) :=
  ⟨Or.inl (by decide),
   c7_not_ours [("x", ⟨"m", false⟩)] "id" [1, 2, 3] (Or.inl (by decide))⟩

/-- C8: the payload `85 00 02 00 3c 32 00` decodes to summary
`batt:50%`, and appending `43 90 01` (temperature record, little
endian 0x0190 = 400) yields gauge value 400/16 = 25 °C and summary
`batt:50% temp:25.0°C`. -/
theorem c8_round_trip :
    onDiscovery [] "aa" [0x85, 0x00, 0x02, 0x00, 0x3c, 0x32, 0x00] =
      ([("aa", ⟨"batt:50%", true⟩)],
        .ok ⟨some 50, [], ["aa: new: batt:50%"]⟩ "batt:50%") ∧
    onDiscovery [] "aa" [0x85, 0x00, 0x02, 0x00, 0x3c, 0x32, 0x00, 0x43, 0x90, 0x01] =
      ([("aa", ⟨"batt:50% temp:25.0°C", true⟩)],
        .ok ⟨some 50, [25], ["aa: new: batt:50% temp:25.0°C"]⟩ "batt:50% temp:25.0°C") := by
  constructor
  · decide
  · have h : (25 : Rat) = (toInt16 (144 + 256 * 1) : Rat) / 16 := by norm_num [toInt16]
    rw [h]
    rfl

/-- C9: applying `batt:50%` then `batt:49%` for the same id leaves the
entry with changed = true; the drain then logs exactly the one line
for this id and clears the flag, so a second drain with no intervening
apply logs nothing. -/
theorem c9_change_detection (id : String) :
    Store.find (applyGo (applyGo [] id "batt:50%").1 id "batt:49%").1 id =
      some ⟨"batt:49%", true⟩ ∧
    (drainGo (applyGo (applyGo [] id "batt:50%").1 id "batt:49%").1).2 =
      [id ++ ": " ++ "batt:49%"] ∧
    (drainGo (drainGo (applyGo (applyGo [] id "batt:50%").1 id "batt:49%").1).1).2 =
      ([] : List String) := by
  simp [applyGo, Store.find, Store.insert, drainGo]

/-- C10: every iteration of the record loop consumes at least the
control byte, so fuel equal to the buffer length is never exhausted:
the loop terminates on every input, unknown data-types included. -/
theorem c10_loop_terminates (fuel : Nat) (rest : List Nat) (acc : DecAcc)
    (h : rest.length ≤ fuel) : decodeLoop fuel rest acc ≠ .fuelOut :=
  decodeLoop_no_fuelOut fuel rest acc h

/-- C10 witness: an unknown-type record stream still terminates. -/
theorem c10_loop_terminates_witness :
    (([0x50, 0x50] : List Nat).length ≤ 2) ∧
    decodeLoop 2 [0x50, 0x50] ⟨"", []⟩ ≠ DecodeOut.fuelOut :=
  ⟨by decide, c10_loop_terminates 2 [0x50, 0x50] ⟨"", []⟩ (by decide)⟩

end Btl
